import Mathlib

/-!
# Verification of the gRPC reflection server core (node-grpc-server)

Shallow embedding of `src/index.js`: the service registry built by
`addReflectedService`, and the `ServerReflectionInfo` stream handler
(dispatch over the inbound request's fields, descriptor-group search for
`fileContainingSymbol` and `fileByFilename`, and the error responses).

Schema buffers are an abstract type `β`; the protobufjs decoder
(`descriptorProto.lookupType('google.protobuf.FileDescriptorProto').decode`)
is an external library and is modelled as a parameter
`decode : β → Except String FileDescriptorProto` (a JS `throw` is `.error`).
-/

namespace GrpcReflection

/-- The decoded form of one schema buffer: the fields of
`google.protobuf.FileDescriptorProto` that `index.js` consults
(`name`, `package`, `service`, `messageType`, `enumType`).
protobufjs defaults absent string fields to `""` and absent repeated
fields to `[]`. -/
structure FileDescriptorProto where
  name : String
  package : String
  service : List String
  messageType : List String
  enumType : List String
  deriving Repr, DecidableEq

/-- `grpc.status.NOT_FOUND` (from `@grpc/grpc-js`). -/
def NOT_FOUND : Nat := 5

/-- `grpc.status.UNIMPLEMENTED` (from `@grpc/grpc-js`). -/
def UNIMPLEMENTED : Nat := 12

/-- An inbound `ServerReflectionRequest`.  Each string field is `none` when
absent (JS `undefined` after destructuring) and `some s` when populated. -/
structure ReflectionRequest where
  listServices : Option String := none
  fileContainingSymbol : Option String := none
  fileByFilename : Option String := none
  fileContainingExtension : Option String := none
  allExtensionNumbersOfType : Option String := none
  deriving Repr, DecidableEq

/-- An outbound `ServerReflectionResponse`, as written by `call.write`:
one of the three object shapes built in `index.js`. -/
inductive ReflectionResponse (β : Type) where
  | listServicesResponse (service : List String)
  | fileDescriptorResponse (fileDescriptorProto : List β)
  | errorResponse (errorCode : Nat)
  deriving Repr, DecidableEq

/-- JS truthiness of a possibly-absent string: `undefined` and `""` are
falsy, every other string is truthy.  This is the test `if (listServices)`,
`if (fileContainingSymbol)`, `if (fileByFilename)` performs. -/
def truthy : Option String → Bool
  | none => false
  | some s => s ≠ ""

/-- One registered gRPC service definition, reduced to the two pieces
`index.js` reads from it: `Object.values(service)[0].path` (the first
method's path, `/qualified.Service/Method`) and
`Object.values(service)[0].requestType?.fileDescriptorProtos` (the raw
schema buffers, possibly absent). -/
structure ServiceDef (β : Type) where
  path : String
  fileDescriptorProtos : Option (List β)

/-- The registry closed over by the reflection handler: the `services`
array and the `fileDescriptorProtos` array of buffer groups. -/
structure Registry (β : Type) where
  services : List (ServiceDef β)
  fileDescriptorProtos : List (List β)

/-- The empty registry at server startup. -/
def Registry.empty (β : Type) : Registry β := ⟨[], []⟩

/-- `addReflectedService`: push the service, and push its buffers as a new
descriptor group when present (`if (protos) fileDescriptorProtos.push(protos)`;
a JS array is truthy even when empty, so `some []` is pushed too). -/
def addReflectedService (r : Registry β) (s : ServiceDef β) : Registry β :=
  { services := r.services ++ [s]
    fileDescriptorProtos :=
      match s.fileDescriptorProtos with
      | some protos => r.fileDescriptorProtos ++ [protos]
      | none => r.fileDescriptorProtos }

/-- The registry after registering the services of `svcs` in order. -/
def mkRegistry (svcs : List (ServiceDef β)) : Registry β :=
  svcs.foldl addReflectedService (Registry.empty β)

/-- JS `String.prototype.split(sep)` for a one-character separator,
over the character list. -/
def splitOnChar (sep : Char) : List Char → List (List Char)
  | [] => [[]]
  | c :: cs =>
    match splitOnChar sep cs with
    | [] => []
    | r :: rs => if c = sep then [] :: r :: rs else (c :: r) :: rs

/-- `Object.values(service)[0].path.split('/')[1]`: the service name the
`listServices` branch extracts from the first method's path. -/
def extractServiceName (path : String) : String :=
  ((splitOnChar '/' path.toList).map String.mk).getD 1 ""

/-- `fdp.package && fdp.package + "."` followed by template interpolation:
the prefix prepended to each declared service/message/enum name. -/
def packagePrefix (fdp : FileDescriptorProto) : String :=
  if fdp.package = "" then "" else fdp.package ++ "."

/-- The match test of the `fileContainingSymbol` branch on one decoded
buffer: `fdp.package === symbol || serviceMatch || messageTypeMatch ||
enumTypeMatch`. -/
def symbolMatches (symbol : String) (fdp : FileDescriptorProto) : Bool :=
  fdp.package = symbol
    || fdp.service.any (fun n => packagePrefix fdp ++ n = symbol)
    || fdp.messageType.any (fun n => packagePrefix fdp ++ n = symbol)
    || fdp.enumType.any (fun n => packagePrefix fdp ++ n = symbol)

/-- The match test of the `fileByFilename` branch on one decoded buffer:
`fdp.name === fileByFilename`. -/
def nameMatches (filename : String) (fdp : FileDescriptorProto) : Bool :=
  fdp.name = filename

/-- The spec's qualified name (§3): `{packageName}.{name}` if the package
is non-empty, else `{name}`. -/
def qualifiedName (pkg n : String) : String :=
  if pkg = "" then n else pkg ++ "." ++ n

/-- The spec's match condition for `fileContainingSymbol` (§4.3): the
decoded package name equals the symbol, or some decoded
service/message/enum qualified name equals the symbol. -/
def symbolMatchesSpec (symbol : String) (fdp : FileDescriptorProto) : Bool :=
  fdp.package = symbol
    || fdp.service.any (fun n => qualifiedName fdp.package n = symbol)
    || fdp.messageType.any (fun n => qualifiedName fdp.package n = symbol)
    || fdp.enumType.any (fun n => qualifiedName fdp.package n = symbol)

variable {β : Type}

/-- Whether a buffer decodes successfully to a descriptor satisfying `p`
(used to phrase search results; a buffer that fails to decode never
counts as a match). -/
def decodesMatch (decode : β → Except String FileDescriptorProto)
    (p : FileDescriptorProto → Bool) (b : β) : Bool :=
  match decode b with
  | .ok fdp => p fdp
  | .error _ => false

/-- Inner loop of a search branch: decode each buffer of one group in
order (a decode failure propagates as an exception) and report whether
some buffer matches. -/
def groupHasMatch (decode : β → Except String FileDescriptorProto)
    (p : FileDescriptorProto → Bool) : List β → Except String Bool
  | [] => .ok false
  | b :: bs =>
    match decode b with
    | .error e => .error e
    | .ok fdp => if p fdp then .ok true else groupHasMatch decode p bs

/-- Outer loop of a search branch: consider each descriptor group in
registration order; on the first group containing a matching buffer,
return that entire group. -/
def searchGroups (decode : β → Except String FileDescriptorProto)
    (p : FileDescriptorProto → Bool) :
    List (List β) → Except String (Option (List β))
  | [] => .ok none
  | g :: gs =>
    match groupHasMatch decode p g with
    | .error e => .error e
    | .ok m => if m then .ok (some g) else searchGroups decode p gs

/-- The body of the `call.on('data', ...)` callback of
`ServerReflectionInfo`: dispatch on the truthiness of `listServices`,
then `fileContainingSymbol`, then `fileByFilename`, else respond
`UNIMPLEMENTED`.  `.ok resp` is the single `call.write(resp)` the branch
performs; `.error e` is an exception escaping the callback. -/
def handleRequest (decode : β → Except String FileDescriptorProto)
    (reg : Registry β) (request : ReflectionRequest) :
    Except String (ReflectionResponse β) :=
  if truthy request.listServices then
    .ok (.listServicesResponse (reg.services.map (fun s => extractServiceName s.path)))
  else if truthy request.fileContainingSymbol then
    match searchGroups decode (symbolMatches (request.fileContainingSymbol.getD ""))
        reg.fileDescriptorProtos with
    | .error e => .error e
    | .ok (some protos) => .ok (.fileDescriptorResponse protos)
    | .ok none => .ok (.errorResponse NOT_FOUND)
  else if truthy request.fileByFilename then
    match searchGroups decode (nameMatches (request.fileByFilename.getD ""))
        reg.fileDescriptorProtos with
    | .error e => .error e
    | .ok (some protos) => .ok (.fileDescriptorResponse protos)
    | .ok none => .ok (.errorResponse NOT_FOUND)
  else
    .ok (.errorResponse UNIMPLEMENTED)

/-!
## Session as an event-driven state machine

`ServerReflectionInfo` installs three callbacks on the call stream:
`data` (handle one request and `call.write` one response), `end`
(`call.end()`, no write), `cancelled` (log only).

Modelled from the spec: the call-stream semantics of the gRPC library
(`@grpc/grpc-js`), which is not part of this repository's sources, is
taken from §4.3/§5 of the specification — after a transport-level
cancellation the stream is in a terminal cancelled state and no response
write is performed for in-flight or later-delivered requests; an
exception escaping the `data` callback fails the whole session, after
which no further events are processed.
-/

/-- One event delivered to the session's callbacks. -/
inductive Event where
  | data (request : ReflectionRequest)
  | endStream
  | cancelled
  deriving Repr, DecidableEq

/-- The observable state of one reflection session: the responses written
so far in order, whether the stream was cancelled, whether the client
ended it, and whether an unhandled exception (decode failure) killed the
session. -/
structure SessionState (β : Type) where
  writes : List (ReflectionResponse β) := []
  cancelled : Bool := false
  ended : Bool := false
  failed : Bool := false

/-- The initial session state (`Open`, nothing written). -/
def SessionState.initial (β : Type) : SessionState β := {}

/-- React to one event.  A `data` event runs the handler and writes its
response, unless the session is already cancelled, ended, or failed. -/
def stepEvent (decode : β → Except String FileDescriptorProto)
    (reg : Registry β) (st : SessionState β) : Event → SessionState β
  | .data request =>
    if st.failed || st.cancelled || st.ended then st
    else
      match handleRequest decode reg request with
      | .ok resp => { st with writes := st.writes ++ [resp] }
      | .error _ => { st with failed := true }
  | .endStream => { st with ended := true }
  | .cancelled => { st with cancelled := true }

/-- Run a whole session over a sequence of delivered events. -/
def runEvents (decode : β → Except String FileDescriptorProto)
    (reg : Registry β) (st : SessionState β) : List Event → SessionState β
  | [] => st
  | e :: es => runEvents decode reg (stepEvent decode reg st e) es

/-- The response the handler produces for a request, when it does not
fail (used to phrase the per-request response correspondence). -/
def responseOf (decode : β → Except String FileDescriptorProto)
    (reg : Registry β) (request : ReflectionRequest) : ReflectionResponse β :=
  (handleRequest decode reg request).toOption.getD (.errorResponse UNIMPLEMENTED)

/-- Whether a handler outcome is a successfully written
`listServicesResponse`. -/
def isListServicesResponse : Except String (ReflectionResponse β) → Bool
  | .ok (.listServicesResponse _) => true
  | _ => false

/-!
## Concrete demo instances for witnesses

A small registry in the shape of the repository's demo: buffers are
natural numbers, and a concrete decode table stands for the protobufjs
decoder (buffer `9` is a buffer whose bytes do not parse).
-/

/-- Decoded descriptor of the demo greeter schema buffer. -/
def demoGreeterFdp : FileDescriptorProto :=
  { name := "greeter.proto"
    package := "greeter"
    service := ["Greeter"]
    messageType := ["HelloRequest", "HelloReply"]
    enumType := [] }

/-- Decoded descriptor of a second, packageless schema buffer. -/
def demoOtherFdp : FileDescriptorProto :=
  { name := "other.proto"
    package := ""
    service := ["Other"]
    messageType := []
    enumType := ["Kind"] }

/-- A concrete decoder over `Nat` buffers; buffer `9` fails to decode. -/
def demoDecode : Nat → Except String FileDescriptorProto
  | 0 => .ok demoGreeterFdp
  | 1 => .ok demoOtherFdp
  | _ => .error "invalid wire type"

/-- The demo greeter service definition. -/
def demoGreeterSvc : ServiceDef Nat :=
  { path := "/greeter.Greeter/SayHello", fileDescriptorProtos := some [0] }

/-- A second service registered without schema buffers. -/
def demoBareSvc : ServiceDef Nat :=
  { path := "/other.Other/Do", fileDescriptorProtos := none }

/-- The demo registry: one service with a one-buffer group, one without
buffers. -/
def demoRegistry : Registry Nat := mkRegistry [demoGreeterSvc, demoBareSvc]

/-- A registry whose second group contains the undecodable buffer `9`. -/
def demoBadRegistry : Registry Nat :=
  mkRegistry
    [ demoGreeterSvc
    , { path := "/broken.Broken/Do", fileDescriptorProtos := some [9] } ]

/-!
## Helper lemmas
-/

theorem splitOnChar_ne_nil (sep : Char) (l : List Char) :
    splitOnChar sep l ≠ [] := by
  induction l with
  | nil => simp [splitOnChar]
  | cons c cs ih =>
    rw [splitOnChar]
    rcases h : splitOnChar sep cs with _ | ⟨r, rs⟩
    · exact absurd h ih
    · by_cases hc : c = sep <;> simp [hc]

theorem splitOnChar_sep_cons (sep : Char) (r : List Char) :
    splitOnChar sep (sep :: r) = [] :: splitOnChar sep r := by
  rw [splitOnChar]
  rcases h : splitOnChar sep r with _ | ⟨x, xs⟩
  · exact absurd h (splitOnChar_ne_nil sep r)
  · simp

theorem splitOnChar_append_sep (sep : Char) (l r : List Char) (hl : sep ∉ l) :
    splitOnChar sep (l ++ sep :: r) = l :: splitOnChar sep r := by
  induction l with
  | nil => simpa using splitOnChar_sep_cons sep r
  | cons c cs ih =>
    have hc : ¬c = sep := fun h => hl (by simp [h])
    have hcs : sep ∉ cs := fun h => hl (by simp [h])
    rw [List.cons_append, splitOnChar, ih hcs]
    simp [hc]

/-- Extracting the service name from a well-formed gRPC method path
`/qualified.Name/Method` recovers the qualified name. -/
theorem extractServiceName_eq (q m : String) (hq : '/' ∉ q.toList) :
    extractServiceName ("/" ++ q ++ "/" ++ m) = q := by
  unfold extractServiceName
  have h : ("/" ++ q ++ "/" ++ m).toList = '/' :: (q.toList ++ '/' :: m.toList) := by
    simp [String.toList]
  rw [h, splitOnChar_sep_cons, splitOnChar_append_sep '/' q.toList m.toList hq]
  rfl

theorem foldl_addReflectedService_services (svcs : List (ServiceDef β))
    (r : Registry β) :
    (svcs.foldl addReflectedService r).services = r.services ++ svcs := by
  induction svcs generalizing r with
  | nil => simp
  | cons s ss ih => rw [List.foldl_cons, ih]; simp [addReflectedService]

theorem mkRegistry_services (svcs : List (ServiceDef β)) :
    (mkRegistry svcs).services = svcs := by
  rw [mkRegistry, foldl_addReflectedService_services]; rfl

/-- The code's match test agrees with the spec's qualified-name match
condition. -/
theorem symbolMatches_eq_spec (symbol : String) (fdp : FileDescriptorProto) :
    symbolMatches symbol fdp = symbolMatchesSpec symbol fdp := by
  unfold symbolMatches symbolMatchesSpec qualifiedName packagePrefix
  by_cases h : fdp.package = "" <;> simp [h, String.append_assoc]

theorem decodesMatch_congr (decode : β → Except String FileDescriptorProto)
    (p q : FileDescriptorProto → Bool) (hpq : ∀ fdp, p fdp = q fdp) (b : β) :
    decodesMatch decode p b = decodesMatch decode q b := by
  unfold decodesMatch
  cases decode b with
  | ok fdp => exact hpq fdp
  | error e => rfl

theorem groupHasMatch_eq_any (decode : β → Except String FileDescriptorProto)
    (p : FileDescriptorProto → Bool) (g : List β)
    (hdec : ∀ b ∈ g, ∃ fdp, decode b = .ok fdp) :
    groupHasMatch decode p g = .ok (g.any (decodesMatch decode p)) := by
  induction g with
  | nil => rfl
  | cons b bs ih =>
    obtain ⟨fdp, hfdp⟩ := hdec b (by simp)
    rw [groupHasMatch, hfdp, List.any_cons]
    have hb : decodesMatch decode p b = p fdp := by rw [decodesMatch, hfdp]
    by_cases hp : p fdp = true
    · simp [hp, hb]
    · simp only [Bool.not_eq_true] at hp
      simp [hp, hb, ih fun b hb => hdec b (by simp [hb])]

theorem searchGroups_eq_find (decode : β → Except String FileDescriptorProto)
    (p : FileDescriptorProto → Bool) (gs : List (List β))
    (hdec : ∀ g ∈ gs, ∀ b ∈ g, ∃ fdp, decode b = .ok fdp) :
    searchGroups decode p gs =
      .ok (gs.find? fun g => g.any (decodesMatch decode p)) := by
  induction gs with
  | nil => rfl
  | cons g gs ih =>
    rw [searchGroups, groupHasMatch_eq_any decode p g (hdec g (by simp))]
    by_cases h : g.any (decodesMatch decode p) = true
    · simp [h, List.find?_cons_of_pos _ h]
    · simp only [Bool.not_eq_true] at h
      rw [List.find?_cons_of_neg _ (by simp [h])]
      simp [h, ih fun g hg => hdec g (by simp [hg])]

theorem groupHasMatch_error_at (decode : β → Except String FileDescriptorProto)
    (p : FileDescriptorProto → Bool) (bs₁ bs₂ : List β) (bad : β) (e : String)
    (h₁ : ∀ b ∈ bs₁, ∃ fdp, decode b = .ok fdp ∧ p fdp = false)
    (hbad : decode bad = .error e) :
    groupHasMatch decode p (bs₁ ++ bad :: bs₂) = .error e := by
  induction bs₁ with
  | nil => rw [List.nil_append, groupHasMatch, hbad]
  | cons b bs ih =>
    obtain ⟨fdp, hfdp, hp⟩ := h₁ b (by simp)
    rw [List.cons_append, groupHasMatch, hfdp]
    simp [hp, ih fun b hb => h₁ b (by simp [hb])]

theorem searchGroups_error_at (decode : β → Except String FileDescriptorProto)
    (p : FileDescriptorProto → Bool) (pre : List (List β)) (g : List β)
    (post : List (List β)) (e : String)
    (hpre : ∀ gr ∈ pre, ∀ b ∈ gr, ∃ fdp, decode b = .ok fdp ∧ p fdp = false)
    (hg : groupHasMatch decode p g = .error e) :
    searchGroups decode p (pre ++ g :: post) = .error e := by
  induction pre with
  | nil => rw [List.nil_append, searchGroups, hg]
  | cons gr grs ih =>
    have hdec : ∀ b ∈ gr, ∃ fdp, decode b = .ok fdp := by
      intro b hb
      obtain ⟨fdp, hfdp, _⟩ := hpre gr (by simp) b hb
      exact ⟨fdp, hfdp⟩
    rw [List.cons_append, searchGroups, groupHasMatch_eq_any decode p gr hdec]
    have hany : gr.any (decodesMatch decode p) = false := by
      rw [List.any_eq_false]
      intro b hb
      obtain ⟨fdp, hfdp, hp⟩ := hpre gr (by simp) b hb
      rw [decodesMatch, hfdp]
      simp [hp]
    simp [hany, ih fun gr hgr => hpre gr (by simp [hgr])]

theorem runEvents_append (decode : β → Except String FileDescriptorProto)
    (reg : Registry β) (st : SessionState β) (l₁ l₂ : List Event) :
    runEvents decode reg st (l₁ ++ l₂) =
      runEvents decode reg (runEvents decode reg st l₁) l₂ := by
  induction l₁ generalizing st with
  | nil => rfl
  | cons e es ih => rw [List.cons_append, runEvents, runEvents, ih]

/-- Once the session is cancelled, no event ever adds a write, and the
cancelled flag never clears. -/
theorem runEvents_of_cancelled (decode : β → Except String FileDescriptorProto)
    (reg : Registry β) (st : SessionState β) (es : List Event)
    (h : st.cancelled = true) :
    (runEvents decode reg st es).writes = st.writes ∧
      (runEvents decode reg st es).cancelled = true := by
  induction es generalizing st with
  | nil => exact ⟨rfl, h⟩
  | cons e es ih =>
    rw [runEvents]
    have hstep : (stepEvent decode reg st e).writes = st.writes ∧
        (stepEvent decode reg st e).cancelled = true := by
      cases e with
      | data request => simp [stepEvent, h]
      | endStream => simp [stepEvent, h]
      | cancelled => simp [stepEvent]
    obtain ⟨hw, hc⟩ := ih (stepEvent decode reg st e) hstep.2
    exact ⟨hw.trans hstep.1, hc⟩

/-- While the session is open and every request handles successfully,
each data event appends exactly the handler's response. -/
theorem runEvents_data_all_ok (decode : β → Except String FileDescriptorProto)
    (reg : Registry β) (reqs : List ReflectionRequest) (st : SessionState β)
    (hc : st.cancelled = false) (he : st.ended = false) (hf : st.failed = false)
    (hok : ∀ r ∈ reqs, ∃ resp, handleRequest decode reg r = .ok resp) :
    runEvents decode reg st (reqs.map Event.data) =
      { writes := st.writes ++ reqs.map (responseOf decode reg),
        cancelled := false, ended := false, failed := false } := by
  induction reqs generalizing st with
  | nil =>
    cases st
    simp_all [runEvents]
  | cons r rs ih =>
    obtain ⟨resp, hresp⟩ := hok r (by simp)
    rw [List.map_cons, runEvents]
    have hstep : stepEvent decode reg st (.data r) =
        { st with writes := st.writes ++ [resp] } := by
      rw [stepEvent]
      simp [hc, he, hf, hresp]
    rw [hstep, ih { st with writes := st.writes ++ [resp] } hc he hf
      fun r hr => hok r (by simp [hr])]
    have : responseOf decode reg r = resp := by
      rw [responseOf, hresp]; rfl
    simp [this]

/-- Dispatch: a request whose `fileContainingSymbol` is truthy (and whose
`listServices` is not) runs the symbol search. -/
theorem handleRequest_symbol_dispatch (decode : β → Except String FileDescriptorProto)
    (reg : Registry β) (req : ReflectionRequest) (symbol : String)
    (hls : truthy req.listServices = false)
    (hfs : req.fileContainingSymbol = some symbol) (hsym : symbol ≠ "") :
    handleRequest decode reg req =
      match searchGroups decode (symbolMatches symbol) reg.fileDescriptorProtos with
      | .error e => .error e
      | .ok (some protos) => .ok (.fileDescriptorResponse protos)
      | .ok none => .ok (.errorResponse NOT_FOUND) := by
  have h2 : truthy req.fileContainingSymbol = true := by
    rw [hfs]; simp [truthy, hsym]
  rw [handleRequest, if_neg (by simp [hls]), if_pos h2, hfs]
  rfl

/-- Dispatch: a request whose `fileByFilename` is truthy (and whose
`listServices` and `fileContainingSymbol` are not) runs the filename
search. -/
theorem handleRequest_filename_dispatch (decode : β → Except String FileDescriptorProto)
    (reg : Registry β) (req : ReflectionRequest) (filename : String)
    (hls : truthy req.listServices = false)
    (hfs : truthy req.fileContainingSymbol = false)
    (hfb : req.fileByFilename = some filename) (hfile : filename ≠ "") :
    handleRequest decode reg req =
      match searchGroups decode (nameMatches filename) reg.fileDescriptorProtos with
      | .error e => .error e
      | .ok (some protos) => .ok (.fileDescriptorResponse protos)
      | .ok none => .ok (.errorResponse NOT_FOUND) := by
  have h3 : truthy req.fileByFilename = true := by
    rw [hfb]; simp [truthy, hfile]
  rw [handleRequest, if_neg (by simp [hls]), if_neg (by simp [hfs]), if_pos h3, hfb]
  rfl

/-!
## Claims
-/

/-- C1: a `fileContainingSymbol` request iterates descriptor groups in
registration order and each group's buffers in order; a buffer matches
iff its decoded package equals the symbol or a package-prefixed
service/message/enum name equals the symbol (the spec's qualified-name
condition); the first group containing a matching buffer is returned
whole and unmodified as a `fileDescriptorResponse`. -/
theorem fileContainingSymbol_first_matching_group
    (decode : β → Except String FileDescriptorProto) (reg : Registry β)
    (req : ReflectionRequest) (symbol : String) (g : List β)
    (hls : truthy req.listServices = false)
    (hfs : req.fileContainingSymbol = some symbol) (hsym : symbol ≠ "")
    (hdec : ∀ gr ∈ reg.fileDescriptorProtos, ∀ b ∈ gr, ∃ fdp, decode b = .ok fdp)
    (hfind : reg.fileDescriptorProtos.find?
        (fun gr => gr.any (decodesMatch decode (symbolMatchesSpec symbol))) = some g) :
    handleRequest decode reg req = .ok (.fileDescriptorResponse g) := by
  have hp : decodesMatch decode (symbolMatches symbol) =
      decodesMatch decode (symbolMatchesSpec symbol) := by
    funext b
    exact decodesMatch_congr decode _ _ (fun fdp => symbolMatches_eq_spec symbol fdp) b
  rw [handleRequest_symbol_dispatch decode reg req symbol hls hfs hsym,
    searchGroups_eq_find decode _ _ hdec, hp, hfind]

/-- C1 witness: in the demo registry, `greeter.Greeter` resolves to the
greeter group. -/
theorem fileContainingSymbol_first_matching_group_witness :
    handleRequest demoDecode demoRegistry
        { fileContainingSymbol := some "greeter.Greeter" } =
      .ok (.fileDescriptorResponse [0]) :=
  fileContainingSymbol_first_matching_group demoDecode demoRegistry
    { fileContainingSymbol := some "greeter.Greeter" } "greeter.Greeter" [0]
    rfl rfl (by decide)
    (by intro gr hgr b hb
        have h : demoRegistry.fileDescriptorProtos = [[0]] := rfl
        rw [h] at hgr
        simp only [List.mem_singleton] at hgr
        subst hgr
        simp only [List.mem_singleton] at hb
        subst hb
        exact ⟨demoGreeterFdp, rfl⟩)
    rfl

/-- C2: with N registered services (some possibly without schema
buffers), a truthy `listServices` request yields a
`listServicesResponse` of exactly the N qualified names, in
registration order. -/
theorem listServices_returns_registered_names
    (decode : β → Except String FileDescriptorProto)
    (svcs : List (ServiceDef β)) (names : List String) (req : ReflectionRequest)
    (hls : truthy req.listServices = true)
    (hwf : List.Forall₂ (fun (s : ServiceDef β) (n : String) =>
        '/' ∉ n.toList ∧ ∃ m : String, s.path = "/" ++ n ++ "/" ++ m) svcs names) :
    handleRequest decode (mkRegistry svcs) req =
      .ok (.listServicesResponse names) := by
  have hmap : svcs.map (fun s => extractServiceName s.path) = names := by
    induction hwf with
    | nil => rfl
    | cons h _ ih =>
      obtain ⟨hn, m, hm⟩ := h
      simp [ih, hm, extractServiceName_eq _ _ hn]
  rw [handleRequest]
  simp [hls, mkRegistry_services, hmap]

/-- C2 witness: the demo registry (one service with buffers, one
without) lists both qualified names in registration order. -/
theorem listServices_returns_registered_names_witness :
    handleRequest demoDecode demoRegistry { listServices := some "x" } =
      .ok (.listServicesResponse ["greeter.Greeter", "other.Other"]) :=
  listServices_returns_registered_names demoDecode [demoGreeterSvc, demoBareSvc]
    ["greeter.Greeter", "other.Other"] { listServices := some "x" } rfl
    (.cons ⟨by decide, "SayHello", by decide⟩
      (.cons ⟨by decide, "Do", by decide⟩ .nil))

/-- C3 counterexample: a request whose `listServices` field is present
but carries the empty string does not produce a `listServicesResponse`;
it falls through to `UNIMPLEMENTED`. -/
theorem listServices_empty_string_falls_through :
    isListServicesResponse
        (handleRequest demoDecode demoRegistry { listServices := some "" }) = false
    ∧ handleRequest demoDecode demoRegistry { listServices := some "" } =
        .ok (.errorResponse UNIMPLEMENTED) :=
  ⟨rfl, rfl⟩

/-- C3 amended: a request whose `listServices` field carries a non-empty
string takes the ListServices branch and yields a
`listServicesResponse`; a present-but-empty `listServices` (with no
other field populated) falls through the dispatch and yields
`UNIMPLEMENTED`, because the branch tests JS truthiness, not field
presence. -/
theorem listServices_dispatch_requires_nonempty
    (decode : β → Except String FileDescriptorProto) (reg : Registry β)
    (s : String) :
    (s ≠ "" → isListServicesResponse
        (handleRequest decode reg { listServices := some s }) = true)
    ∧ handleRequest decode reg { listServices := some "" } =
        .ok (.errorResponse UNIMPLEMENTED) := by
  constructor
  · intro hs
    rw [handleRequest]
    simp [truthy, hs, isListServicesResponse]
  · rfl

/-- C3 amended witness: a concrete non-empty `listServices` request
produces a `listServicesResponse`. -/
theorem listServices_dispatch_requires_nonempty_witness :
    isListServicesResponse (handleRequest demoDecode demoRegistry
      { listServices := some "services" }) = true :=
  (listServices_dispatch_requires_nonempty demoDecode demoRegistry "services").1
    (by decide)

/-- C4: a `fileByFilename` request matches a buffer iff its decoded file
name equals the filename exactly; the first matching buffer's whole
group is returned, and with no match anywhere the response is a
`NOT_FOUND` error. -/
theorem fileByFilename_match_or_not_found
    (decode : β → Except String FileDescriptorProto) (reg : Registry β)
    (req : ReflectionRequest) (filename : String)
    (hls : truthy req.listServices = false)
    (hfs : truthy req.fileContainingSymbol = false)
    (hfb : req.fileByFilename = some filename) (hfile : filename ≠ "")
    (hdec : ∀ gr ∈ reg.fileDescriptorProtos, ∀ b ∈ gr, ∃ fdp, decode b = .ok fdp) :
    handleRequest decode reg req =
      .ok (match reg.fileDescriptorProtos.find?
          (fun gr => gr.any (decodesMatch decode (nameMatches filename))) with
        | some g => .fileDescriptorResponse g
        | none => .errorResponse NOT_FOUND) := by
  rw [handleRequest_filename_dispatch decode reg req filename hls hfs hfb hfile,
    searchGroups_eq_find decode _ _ hdec]
  cases reg.fileDescriptorProtos.find?
      (fun gr => gr.any (decodesMatch decode (nameMatches filename))) with
  | none => rfl
  | some g => rfl

/-- C4 witness: the demo registry resolves `greeter.proto` to its group;
the conclusion's first-match case fires. -/
theorem fileByFilename_match_or_not_found_witness :
    handleRequest demoDecode demoRegistry { fileByFilename := some "greeter.proto" } =
      .ok (.fileDescriptorResponse [0]) := by
  have h := fileByFilename_match_or_not_found demoDecode demoRegistry
    { fileByFilename := some "greeter.proto" } "greeter.proto" rfl rfl rfl (by decide)
    (by intro gr hgr b hb
        have hh : demoRegistry.fileDescriptorProtos = [[0]] := rfl
        rw [hh] at hgr
        simp only [List.mem_singleton] at hgr
        subst hgr
        simp only [List.mem_singleton] at hb
        subst hb
        exact ⟨demoGreeterFdp, rfl⟩)
  exact h

/-- C5: a `fileContainingSymbol` request whose symbol matches no buffer
of any group (no decoded package and no qualified service/message/enum
name equals it) yields exactly one `NOT_FOUND` error response. -/
theorem fileContainingSymbol_absent_not_found
    (decode : β → Except String FileDescriptorProto) (reg : Registry β)
    (req : ReflectionRequest) (symbol : String)
    (hls : truthy req.listServices = false)
    (hfs : req.fileContainingSymbol = some symbol) (hsym : symbol ≠ "")
    (hdec : ∀ gr ∈ reg.fileDescriptorProtos, ∀ b ∈ gr,
        ∃ fdp, decode b = .ok fdp ∧ symbolMatchesSpec symbol fdp = false) :
    handleRequest decode reg req = .ok (.errorResponse NOT_FOUND) := by
  have hdec' : ∀ gr ∈ reg.fileDescriptorProtos, ∀ b ∈ gr,
      ∃ fdp, decode b = .ok fdp := by
    intro gr hgr b hb
    obtain ⟨fdp, hfdp, _⟩ := hdec gr hgr b hb
    exact ⟨fdp, hfdp⟩
  have hnone : reg.fileDescriptorProtos.find?
      (fun gr => gr.any (decodesMatch decode (symbolMatches symbol))) = none := by
    rw [List.find?_eq_none]
    intro gr hgr
    simp only [Bool.not_eq_true, List.any_eq_false]
    intro b hb
    obtain ⟨fdp, hfdp, hm⟩ := hdec gr hgr b hb
    have hdm : decodesMatch decode (symbolMatches symbol) b =
        symbolMatches symbol fdp := by
      rw [decodesMatch, hfdp]
    rw [hdm, symbolMatches_eq_spec, hm]
  rw [handleRequest_symbol_dispatch decode reg req symbol hls hfs hsym,
    searchGroups_eq_find decode _ _ hdec', hnone]

/-- C5 witness: `nope.Nope` is absent from the demo registry and yields
`NOT_FOUND`. -/
theorem fileContainingSymbol_absent_not_found_witness :
    handleRequest demoDecode demoRegistry { fileContainingSymbol := some "nope.Nope" } =
      .ok (.errorResponse NOT_FOUND) :=
  fileContainingSymbol_absent_not_found demoDecode demoRegistry
    { fileContainingSymbol := some "nope.Nope" } "nope.Nope" rfl rfl (by decide)
    (by intro gr hgr b hb
        have hh : demoRegistry.fileDescriptorProtos = [[0]] := rfl
        rw [hh] at hgr
        simp only [List.mem_singleton] at hgr
        subst hgr
        simp only [List.mem_singleton] at hb
        subst hb
        exact ⟨demoGreeterFdp, rfl, by decide⟩)

/-- C6: a request none of whose recognized string fields
(`listServices`, `fileContainingSymbol`, `fileByFilename`) is populated
— which covers `fileContainingExtension` requests,
`allExtensionNumbersOfType` requests, and empty requests — yields
exactly one `UNIMPLEMENTED` error response and never fails. -/
theorem unrecognized_request_unimplemented
    (decode : β → Except String FileDescriptorProto) (reg : Registry β)
    (req : ReflectionRequest)
    (hls : req.listServices = none) (hfs : req.fileContainingSymbol = none)
    (hfb : req.fileByFilename = none) :
    handleRequest decode reg req = .ok (.errorResponse UNIMPLEMENTED) := by
  rw [handleRequest]
  simp [hls, hfs, hfb, truthy]

/-- C6 witness: a `fileContainingExtension` request gets
`UNIMPLEMENTED`. -/
theorem unrecognized_request_unimplemented_witness :
    handleRequest demoDecode demoRegistry
        { fileContainingExtension := some "greeter.HelloRequest" } =
      .ok (.errorResponse UNIMPLEMENTED) :=
  unrecognized_request_unimplemented demoDecode demoRegistry
    { fileContainingExtension := some "greeter.HelloRequest" } rfl rfl rfl

/-- C7: on a single open stream where every request handles without a
decode failure, the session writes exactly one response per request,
synchronously in delivery order: the writes are precisely the handler's
responses to the requests, in the same order. -/
theorem session_one_response_per_request_in_order
    (decode : β → Except String FileDescriptorProto) (reg : Registry β)
    (reqs : List ReflectionRequest)
    (hok : ∀ r ∈ reqs, ∃ resp, handleRequest decode reg r = .ok resp) :
    runEvents decode reg (SessionState.initial β) (reqs.map Event.data) =
      { writes := reqs.map (responseOf decode reg),
        cancelled := false, ended := false, failed := false } := by
  simpa using
    runEvents_data_all_ok decode reg reqs (SessionState.initial β) rfl rfl rfl hok

/-- C7 witness: three concrete requests produce exactly their three
responses in order. -/
theorem session_one_response_per_request_in_order_witness :
    runEvents demoDecode demoRegistry (SessionState.initial Nat)
        [.data { listServices := some "true" },
         .data { fileContainingSymbol := some "greeter" },
         .data { fileByFilename := some "missing.proto" }] =
      { writes := [.listServicesResponse ["greeter.Greeter", "other.Other"],
                   .fileDescriptorResponse [0],
                   .errorResponse NOT_FOUND],
        cancelled := false, ended := false, failed := false } := by
  have h := session_one_response_per_request_in_order demoDecode demoRegistry
    [{ listServices := some "true" },
     { fileContainingSymbol := some "greeter" },
     { fileByFilename := some "missing.proto" }]
    (by intro r hr
        simp only [List.mem_cons, List.not_mem_nil, or_false] at hr
        rcases hr with h | h | h <;> subst h
        · exact ⟨.listServicesResponse ["greeter.Greeter", "other.Other"], rfl⟩
        · exact ⟨.fileDescriptorResponse [0], rfl⟩
        · exact ⟨.errorResponse NOT_FOUND, rfl⟩)
  exact h

/-- C8: when the symbol or filename search reaches a stored buffer that
fails to decode (every earlier buffer in search order decodes fine and
does not match), the handler produces no response and the failure
propagates: the session records no write for that request and is dead
thereafter. -/
theorem decode_failure_fails_search
    (decode : β → Except String FileDescriptorProto) (reg : Registry β)
    (symbol filename e : String)
    (pre : List (List β)) (bs₁ bs₂ : List β) (bad : β) (post : List (List β))
    (hsym : symbol ≠ "") (hfile : filename ≠ "")
    (hgroups : reg.fileDescriptorProtos = pre ++ (bs₁ ++ bad :: bs₂) :: post)
    (hpre : ∀ gr ∈ pre, ∀ b ∈ gr, ∃ fdp, decode b = .ok fdp ∧
        symbolMatchesSpec symbol fdp = false ∧ nameMatches filename fdp = false)
    (hbs : ∀ b ∈ bs₁, ∃ fdp, decode b = .ok fdp ∧
        symbolMatchesSpec symbol fdp = false ∧ nameMatches filename fdp = false)
    (hbad : decode bad = .error e) :
    handleRequest decode reg { fileContainingSymbol := some symbol } = .error e
    ∧ handleRequest decode reg { fileByFilename := some filename } = .error e
    ∧ runEvents decode reg (SessionState.initial β)
        [.data { fileContainingSymbol := some symbol }] =
      { writes := [], cancelled := false, ended := false, failed := true } := by
  have hsearch : ∀ p : FileDescriptorProto → Bool,
      (∀ fdp : FileDescriptorProto,
        (symbolMatchesSpec symbol fdp = false ∧ nameMatches filename fdp = false) →
          p fdp = false) →
      searchGroups decode p reg.fileDescriptorProtos = .error e := by
    intro p hp
    rw [hgroups]
    refine searchGroups_error_at decode p pre _ post e ?_ ?_
    · intro gr hgr b hb
      obtain ⟨fdp, hfdp, hm⟩ := hpre gr hgr b hb
      exact ⟨fdp, hfdp, hp fdp hm⟩
    · refine groupHasMatch_error_at decode p bs₁ bs₂ bad e ?_ hbad
      intro b hb
      obtain ⟨fdp, hfdp, hm⟩ := hbs b hb
      exact ⟨fdp, hfdp, hp fdp hm⟩
  have h₁ : handleRequest decode reg { fileContainingSymbol := some symbol } =
      .error e := by
    rw [handleRequest_symbol_dispatch decode reg
        { fileContainingSymbol := some symbol } symbol rfl rfl hsym,
      hsearch (symbolMatches symbol)
        (fun fdp hm => by rw [symbolMatches_eq_spec]; exact hm.1)]
  have h₂ : handleRequest decode reg { fileByFilename := some filename } =
      .error e := by
    rw [handleRequest_filename_dispatch decode reg
        { fileByFilename := some filename } filename rfl rfl rfl hfile,
      hsearch (nameMatches filename) (fun fdp hm => hm.2)]
  refine ⟨h₁, h₂, ?_⟩
  rw [runEvents, runEvents, stepEvent]
  simp [SessionState.initial, h₁]

/-- C8 witness: the bad registry's second group starts with the
undecodable buffer `9`; both searches fail the session with no
response. -/
theorem decode_failure_fails_search_witness :
    handleRequest demoDecode demoBadRegistry { fileContainingSymbol := some "nope" } =
        .error "invalid wire type"
    ∧ handleRequest demoDecode demoBadRegistry { fileByFilename := some "nope.proto" } =
        .error "invalid wire type"
    ∧ runEvents demoDecode demoBadRegistry (SessionState.initial Nat)
        [.data { fileContainingSymbol := some "nope" }] =
      { writes := [], cancelled := false, ended := false, failed := true } :=
  decode_failure_fails_search demoDecode demoBadRegistry "nope" "nope.proto"
    "invalid wire type" [[0]] [] [] 9 [] (by decide) (by decide) rfl
    (by intro gr hgr b hb
        simp only [List.mem_singleton] at hgr
        subst hgr
        simp only [List.mem_singleton] at hb
        subst hb
        exact ⟨demoGreeterFdp, rfl, by decide, by decide⟩)
    (by intro b hb; simp at hb)
    rfl

/-- C9: once a cancellation signal arrives, the session is in the
terminal cancelled state and performs no further writes: the writes of
the whole run equal the writes made before the cancellation, whatever
events are delivered afterwards.  (The call-stream cancellation
semantics of the gRPC library is modelled from the spec, as noted at the
session model.) -/
theorem no_writes_after_cancellation
    (decode : β → Except String FileDescriptorProto) (reg : Registry β)
    (es₁ es₂ : List Event) :
    (runEvents decode reg (SessionState.initial β)
        (es₁ ++ Event.cancelled :: es₂)).writes =
      (runEvents decode reg (SessionState.initial β) es₁).writes
    ∧ (runEvents decode reg (SessionState.initial β)
        (es₁ ++ Event.cancelled :: es₂)).cancelled = true := by
  rw [runEvents_append, runEvents]
  have hstep : stepEvent decode reg
      (runEvents decode reg (SessionState.initial β) es₁) .cancelled =
      { runEvents decode reg (SessionState.initial β) es₁ with cancelled := true } :=
    rfl
  rw [hstep]
  exact runEvents_of_cancelled decode reg _ es₂ rfl

/-- C10: a request whose only populated field is `fileContainingSymbol`
or `fileByFilename` carrying the empty string falls through every
dispatch branch (each tests JS truthiness) and yields `UNIMPLEMENTED`,
not `NOT_FOUND` and not a descriptor search. -/
theorem empty_string_payload_unimplemented
    (decode : β → Except String FileDescriptorProto) (reg : Registry β)
    (req : ReflectionRequest)
    (hreq : req = { fileContainingSymbol := some "" }
      ∨ req = { fileByFilename := some "" }) :
    handleRequest decode reg req = .ok (.errorResponse UNIMPLEMENTED) := by
  rcases hreq with h | h <;> subst h <;> rfl

/-- C10 witness: an empty-string `fileContainingSymbol` request on the
demo registry gets `UNIMPLEMENTED`. -/
theorem empty_string_payload_unimplemented_witness :
    handleRequest demoDecode demoRegistry
        { fileContainingSymbol := some "" } =
      .ok (.errorResponse UNIMPLEMENTED) :=
  empty_string_payload_unimplemented demoDecode demoRegistry
    { fileContainingSymbol := some "" } (Or.inl rfl)

end GrpcReflection
